import Mathlib

/-!
Verification of the chip-economy core of the tlyt repository.

The definitions below are a shallow embedding of the TypeScript source:
* `src/lib/youtube.ts` — duration parsing, chip-cost calculation, URL parsing;
* `src/app/actions.ts` — `deductChips`, `upsertVideoAction`,
  `requestAnalysisAuthenticated`, user creation;
* `src/app/api/webhooks/stripe/route.ts` — `handleCheckoutSessionCompleted`;
* `src/prisma/migrations/20250806213207_add_chip_economy/migration.sql` —
  the persisted data model (balances, transactions, packages).

JavaScript `number` arithmetic in the duration/cost pipeline is modelled by
exact rationals; in the value ranges the theorems quantify over, IEEE doubles
compute these rationals exactly (all intermediate values stay far below 2^53
and the only division is by 60, exact whenever the quotient is observed at
an integer boundary).  Database rows are modelled as Lean structures, tables
as lists, and each server action as a pure function from a database state to
a result together with the successor state.  External collaborators (YouTube
metadata fetch, the Gemini analysis call, Stripe line items) are parameters
of the corresponding operation, exactly as precise as the code needs.
-/

/- Batteries marks the rational operations irreducible; re-enable unfolding
   so that concrete instances can be settled by `decide`. -/
attribute [local semireducible] Rat.add Rat.mul Rat.inv Rat.sub

/-! ### src/lib/youtube.ts : ISO-8601 duration parsing

`parseISO8601Duration` applies the regex
`PT(?:(\d+)H)?(?:(\d+)M)?(?:(\d+)S)?` with JavaScript `String.match`
semantics: the match anchors at the leftmost occurrence of the literal
`PT` (every group being optional, the pattern succeeds at the first such
occurrence or not at all), and each optional group consumes a maximal
digit run if and only if that run is immediately followed by the group
letter. -/

/-- Maximal leading digit run of a character list, with the remainder. -/
def takeDigits : List Char → List Char × List Char
  | [] => ([], [])
  | c :: cs =>
    if c.isDigit then
      let p := takeDigits cs
      (c :: p.1, p.2)
    else ([], c :: cs)

/-- One optional regex group `(?:(\d+)L)?`: consume digits plus the letter
`L` when present, otherwise consume nothing.  Returns the captured digits
(if any) and the remaining input. -/
def matchGroup (letter : Char) (cs : List Char) : Option (List Char) × List Char :=
  let p := takeDigits cs
  match p.1, p.2 with
  | [], _ => (none, cs)
  | d, c :: r => if c = letter then (some d, r) else (none, cs)
  | _, [] => (none, cs)

/-- Leftmost occurrence of the literal `PT`; returns the suffix after it. -/
def findPT : List Char → Option (List Char)
  | 'P' :: 'T' :: rest => some rest
  | _ :: rest => findPT rest
  | [] => none

/-- `parseInt(digits, 10)` on a digit run (the groups only capture `\d+`). -/
def digitsToNat (ds : List Char) : Nat :=
  ds.foldl (fun n c => 10 * n + (c.toNat - 48)) 0

/-- `parseISO8601Duration(duration)`: duration in minutes
(`hours * 60 + minutes + seconds / 60`), or a thrown error when the
regex does not match. -/
def parseISO8601Duration (duration : String) : Except String ℚ :=
  match findPT duration.toList with
  | none => .error ("Invalid ISO 8601 duration format: " ++ duration)
  | some rest =>
    let gH := matchGroup 'H' rest
    let gM := matchGroup 'M' gH.2
    let gS := matchGroup 'S' gM.2
    let hours : ℕ := digitsToNat (gH.1.getD [])
    let minutes : ℕ := digitsToNat (gM.1.getD [])
    let seconds : ℕ := digitsToNat (gS.1.getD [])
    .ok ((hours : ℚ) * 60 + (minutes : ℚ) + (seconds : ℚ) / 60)

/-- `calculateChipCost(duration)`:
`Math.max(1, Math.ceil(durationMinutes / 30))`, propagating the parse
error. -/
def calculateChipCost (duration : String) : Except String ℤ :=
  match parseISO8601Duration duration with
  | .error e => .error e
  | .ok durationMinutes => .ok (max 1 ⌈durationMinutes / 30⌉)

/-! ### src/lib/youtube.ts : `extractVideoId`

Two regex patterns tried in order.  Pattern 1 is an alternation of four
literal markers followed by a capture `([^&\n?#]+)`; pattern 2 is
`youtube\.com\/watch\?.*v=([^&\n?#]+)` with a greedy dot (which in
JavaScript does not cross line terminators). -/

/-- The capture class `[^&\n?#]`. -/
def isCapChar (c : Char) : Bool := !(c = '&' || c = '\n' || c = '?' || c = '#')

/-- JavaScript `.` (no `s` flag): any character except a line terminator. -/
def dotChar (c : Char) : Bool :=
  !(c = '\n' || c = '\r' || c = '\u2028' || c = '\u2029')

/-- Match a literal at the head of the input; return the remainder. -/
def dropLit : List Char → List Char → Option (List Char)
  | [], cs => some cs
  | _ :: _, [] => none
  | l :: ls, c :: cs => if c = l then dropLit ls cs else none

/-- Pattern 1 at the current position: one of the four markers followed by
a non-empty capture. -/
def pat1Here (cs : List Char) : Option (List Char) :=
  let rest :=
    (dropLit "youtube.com/watch?v=".toList cs).orElse fun _ =>
    (dropLit "youtu.be/".toList cs).orElse fun _ =>
    (dropLit "youtube.com/embed/".toList cs).orElse fun _ =>
    dropLit "youtube.com/v/".toList cs
  match rest with
  | none => none
  | some r =>
    let cap := r.takeWhile isCapChar
    if cap.isEmpty then none else some cap

/-- Pattern 1, scanning for the leftmost matching position. -/
def pat1Scan : List Char → Option (List Char)
  | [] => none
  | c :: cs =>
    match pat1Here (c :: cs) with
    | some cap => some cap
    | none => pat1Scan cs

/-- The `.*v=([^&\n?#]+)` tail of pattern 2 on a suffix: the greedy dot
prefers the longest prefix, backtracking to the rightmost `v=` that
leaves a non-empty capture. -/
def pat2Suffix : List Char → Option (List Char)
  | [] => none
  | c :: cs =>
    match (if dotChar c then pat2Suffix cs else none) with
    | some cap => some cap
    | none =>
      if c = 'v' then
        match cs with
        | '=' :: b =>
          let cap := b.takeWhile isCapChar
          if cap.isEmpty then none else some cap
        | _ => none
      else none

/-- Pattern 2, scanning for the leftmost position where the whole pattern
succeeds. -/
def pat2Scan : List Char → Option (List Char)
  | [] => none
  | c :: cs =>
    match dropLit "youtube.com/watch?".toList (c :: cs) with
    | some rest =>
      match pat2Suffix rest with
      | some cap => some cap
      | none => pat2Scan cs
    | none => pat2Scan cs

/-- `extractVideoId(url)`: first pattern that matches wins. -/
def extractVideoId (url : String) : Option String :=
  match pat1Scan url.toList with
  | some cap => some (String.mk cap)
  | none =>
    match pat2Scan url.toList with
    | some cap => some (String.mk cap)
    | none => none

deriving instance DecidableEq for Except

example : extractVideoId "https://youtube.com/watch?v=abc123" = some "abc123" := by decide
example : extractVideoId "https://youtu.be/xyz?t=4" = some "xyz" := by decide
example : extractVideoId "nope" = none := by decide
example : parseISO8601Duration "PT1H30M45S" = .ok (90 + 45 / 60 : ℚ) := by decide
example : parseISO8601Duration "bogus" =
    .error "Invalid ISO 8601 duration format: bogus" := by decide
example : calculateChipCost "PT30M" = .ok 1 := by decide
example : calculateChipCost "PT31M" = .ok 2 := by decide
example : calculateChipCost "PT0S" = .ok 1 := by decide
example : calculateChipCost "PT1801S" = .ok 2 := by decide

/-! ### Persisted data model

From `src/prisma/migrations/20250806000000_init/migration.sql` and
`src/prisma/migrations/20250806213207_add_chip_economy/migration.sql`.
Rows carry the columns the chip-economy core reads or writes; generated
primary keys of transactions and timestamps are not modelled.  The
transaction `type` column is kept as a string, because the code writes
string literals into it; the enum the migration actually creates is
recorded separately in `persistedTransactionTypes`. -/

/-- The values of the `TransactionType` enum created by the
`add_chip_economy` migration. -/
def persistedTransactionTypes : List String :=
  ["PURCHASE", "ANALYSIS_SPEND", "ADMIN_CREDIT", "ADMIN_DEBIT"]

/-- A row of `users`: `workosId` is the optional external-identity link,
`chipBalance` defaults to 0. -/
structure UserRec where
  id : String
  workosId : Option String
  chipBalance : ℤ
deriving DecidableEq

/-- A row of `transactions` (a ledger entry). -/
structure Txn where
  userId : String
  type : String
  chipAmount : ℤ
  description : String
  stripeSessionId : Option String
  videoId : Option String
  packageId : Option String
deriving DecidableEq

/-- A row of `videos` (the fields the core reads). -/
structure VideoRec where
  id : String
  youtubeId : String
  title : String
  duration : String
  chipCost : ℤ
deriving DecidableEq

/-- A row of `views`. -/
structure ViewRec where
  id : String
  userId : String
  videoIds : List String
  requestIds : List String
  analysisIds : List String
deriving DecidableEq

/-- A row of `requests`. -/
structure RequestRec where
  id : String
  userId : String
  userPrompt : Option String
  videoIds : List String
  analysisIds : List String
deriving DecidableEq

/-- A row of `analyses` (identity fields only; the summary payload is
irrelevant to the chip economy). -/
structure AnalysisRec where
  id : String
  userId : String
  videoId : String
deriving DecidableEq

/-- A row of `chip_packages`. -/
structure ChipPkg where
  id : String
  name : String
  chipAmount : ℤ
  stripePriceId : String
deriving DecidableEq

/-- The database state the chip-economy core touches. -/
structure DB where
  users : List UserRec
  transactions : List Txn
  videos : List VideoRec
  views : List ViewRec
  requests : List RequestRec
  analyses : List AnalysisRec
  packages : List ChipPkg
deriving DecidableEq

/-- `prisma.user.findUnique({where: {id}})`. -/
def findUser (db : DB) (userId : String) : Option UserRec :=
  db.users.find? fun u => u.id = userId

/-- `prisma.view.findUnique({where: {id}})`. -/
def findView (db : DB) (viewId : String) : Option ViewRec :=
  db.views.find? fun v => v.id = viewId

/-- `prisma.video.findUnique({where: {id}})`. -/
def findVideo (db : DB) (videoId : String) : Option VideoRec :=
  db.videos.find? fun v => v.id = videoId

/-- `prisma.chipPackage.findUnique({where: {stripePriceId}})`. -/
def findPkg (db : DB) (priceId : String) : Option ChipPkg :=
  db.packages.find? fun p => p.stripePriceId = priceId

/-- `tx.user.update({data: {chipBalance: newBal}})` — absolute write. -/
def setUserBalance (users : List UserRec) (userId : String) (newBal : ℤ) : List UserRec :=
  users.map fun u => if u.id = userId then { u with chipBalance := newBal } else u

/-- `tx.user.update({data: {chipBalance: {increment: amount}}})`. -/
def incrementUserBalance (users : List UserRec) (userId : String) (amount : ℤ) : List UserRec :=
  users.map fun u => if u.id = userId then { u with chipBalance := u.chipBalance + amount } else u

/-- `prisma.user.create` (`initializeUser`): `chip_balance` takes the
schema default 0. -/
def createUser (db : DB) (userId : String) (workosId : Option String) : DB :=
  { db with users := db.users ++ [{ id := userId, workosId := workosId, chipBalance := 0 }] }

/-! ### src/app/actions.ts : `deductChips` -/

/-- The distinct failure exits of `deductChips` (in the source each is a
distinct `error` string or thrown message). -/
inductive DeductError where
  | invalidUserId
  | invalidChipAmount
  | invalidDescription
  | userNotFound
  | insufficientChipBalance
deriving DecidableEq

/-- `deductChips(userId, chipAmount, description, videoId?)`: validates,
then inside one database transaction re-reads the balance, fails when it
is short, otherwise writes `chipBalance - chipAmount` and inserts a
`DEDUCTION` ledger entry with delta `-chipAmount`.  Returns
`{transaction, newBalance}` and the successor state.  (`chipAmount` is an
integer here, so the source `Number.isInteger` test always passes.) -/
def deductChips (db : DB) (userId : String) (chipAmount : ℤ)
    (description : String) (videoId : Option String) :
    Except DeductError (Txn × ℤ) × DB :=
  if userId = "" then (.error .invalidUserId, db)
  else if chipAmount < 1 then (.error .invalidChipAmount, db)
  else if description = "" then (.error .invalidDescription, db)
  else
    match findUser db userId with
    | none => (.error .userNotFound, db)
    | some user =>
      if user.chipBalance < chipAmount then (.error .insufficientChipBalance, db)
      else
        let txn : Txn :=
          { userId := userId
            type := "DEDUCTION"
            chipAmount := -chipAmount
            description := description
            stripeSessionId := none
            videoId := videoId
            packageId := none }
        let newBal := user.chipBalance - chipAmount
        (.ok (txn, newBal),
          { db with
            users := setUserBalance db.users userId newBal
            transactions := db.transactions ++ [txn] })

/-! ### src/app/api/webhooks/stripe/route.ts : `handleCheckoutSessionCompleted` -/

/-- The fields of a `checkout.session.completed` payload the handler
reads. -/
structure StripeSession where
  id : String
  clientReferenceId : Option String
deriving DecidableEq

/-- A Stripe line item as the handler reads it. -/
structure LineItem where
  priceId : Option String
  quantity : Option ℤ
deriving DecidableEq

/-- `lineItem.quantity || 1` (JavaScript: `null`, `undefined` and `0` all
fall back to 1). -/
def lineItemQuantity (q : Option ℤ) : ℤ :=
  match q with
  | none => 1
  | some n => if n = 0 then 1 else n

/-- Outcome of one settlement run: an early `return` (logged and skipped),
a successful credit, or a thrown error (the webhook route then answers
500). -/
inductive SettlementResult where
  | skipped
  | credited (totalChips : ℤ)
  | threw (msg : String)
deriving DecidableEq

/-- `handleCheckoutSessionCompleted(session)` with the line items the
Stripe API returns for it.  The credit and the `PURCHASE` ledger insert
run in one database transaction; since `transactions.stripe_session_id`
is UNIQUE, a second insert with the same session id violates the
constraint and the whole transaction (including the balance increment)
rolls back and the error propagates. -/
def handleCheckoutSessionCompleted (db : DB) (session : StripeSession)
    (lineItems : List LineItem) : SettlementResult × DB :=
  match session.clientReferenceId with
  | none => (.skipped, db)
  | some userId =>
    if userId = "" then (.skipped, db)
    else
      match findUser db userId with
      | none => (.skipped, db)
      | some _ =>
        match lineItems.head? with
        | none => (.skipped, db)
        | some lineItem =>
          match lineItem.priceId with
          | none => (.skipped, db)
          | some priceId =>
            if priceId = "" then (.skipped, db)
            else
              match findPkg db priceId with
              | none => (.skipped, db)
              | some chipPackage =>
                let quantity := lineItemQuantity lineItem.quantity
                let totalChips := chipPackage.chipAmount * quantity
                if db.transactions.any (fun t => t.stripeSessionId = some session.id) then
                  (.threw "Unique constraint failed on stripe_session_id", db)
                else
                  let txn : Txn :=
                    { userId := userId
                      type := "PURCHASE"
                      chipAmount := totalChips
                      description := "Purchased " ++ chipPackage.name
                      stripeSessionId := some session.id
                      videoId := none
                      packageId := some chipPackage.id }
                  (.credited totalChips,
                    { db with
                      users := incrementUserBalance db.users userId totalChips
                      transactions := db.transactions ++ [txn] })

/-! ### src/lib/youtube.ts : `mapYouTubeDataToVideo` and
src/app/actions.ts : `upsertVideoAction` -/

/-- The YouTube API fields the chip-economy core reads (`data.id`,
`data.snippet.title`, `data.contentDetails.duration`). -/
structure YouTubeVideoData where
  id : String
  title : String
  duration : String
deriving DecidableEq

/-- The video fields `mapYouTubeDataToVideo` assembles that the core later
reads.  The chip cost is a JavaScript number (`ℚ` here): either the
caller-supplied value or the duration-derived integer cost. -/
structure VideoCreateInput where
  youtubeId : String
  title : String
  duration : String
  chipCost : ℚ
deriving DecidableEq

/-- `mapYouTubeDataToVideo(data, chipCost?)`:
`chipCost ?? calculateChipCost(data.contentDetails.duration)` — the
calculator (which can throw) only runs when no cost was supplied. -/
def mapYouTubeDataToVideo (data : YouTubeVideoData) (chipCost : Option ℚ) :
    Except String VideoCreateInput :=
  match chipCost with
  | some c =>
    .ok { youtubeId := data.id, title := data.title, duration := data.duration, chipCost := c }
  | none =>
    match calculateChipCost data.duration with
    | .error e => .error e
    | .ok c =>
      .ok { youtubeId := data.id, title := data.title, duration := data.duration,
            chipCost := (c : ℚ) }

/-- Result of `upsertVideoAction`: the returned record or the `error`
string, the successor video table, and whether the video store was
accessed at all during the call. -/
structure UpsertOutcome where
  result : Except String VideoRec
  videos : List VideoRec
  storeAccessed : Bool
deriving DecidableEq

/-- The body of `upsertVideoAction` after input validation: look up the
existing record, fetch fresh metadata (`fetchResult` is what the YouTube
API returned), map, then update or create.  A `calculateChipCost` throw
is caught by the surrounding handler as an unexpected error. -/
def upsertVideoBody (videos : List VideoRec) (fetchResult : Option YouTubeVideoData)
    (freshId : String) (videoId : String) (chipCost : Option ℚ) : UpsertOutcome :=
  match fetchResult with
  | none => ⟨.error "Video not found on YouTube", videos, true⟩
  | some youtubeData =>
    match mapYouTubeDataToVideo youtubeData chipCost with
    | .error _ => ⟨.error "An unexpected error occurred", videos, true⟩
    | .ok videoData =>
      let stored : VideoRec :=
        { id := freshId
          youtubeId := videoData.youtubeId
          title := videoData.title
          duration := videoData.duration
          chipCost := videoData.chipCost.num }
      match videos.find? (fun v => v.youtubeId = videoId) with
      | some existing =>
        let updated : VideoRec := { stored with id := existing.id }
        ⟨.ok updated,
          videos.map (fun v => if v.youtubeId = videoId then updated else v), true⟩
      | none =>
        ⟨.ok stored, videos ++ [stored], true⟩

/-- `upsertVideoAction(youtubeUrl, chipCost?)`: validates the URL string
and the optional manual chip cost (which must be an integer at least 1)
before anything else, extracts the video id, and only then touches the
video store.  The database integer column stores the numerator of the
validated cost (equal to the cost itself once the integrality check has
passed). -/
def upsertVideoAction (videos : List VideoRec) (fetchResult : Option YouTubeVideoData)
    (freshId : String) (youtubeUrl : String) (chipCost : Option ℚ) : UpsertOutcome :=
  if youtubeUrl = "" then ⟨.error "Invalid YouTube URL provided", videos, false⟩
  else if chipCost.any (fun c => c < 1 || c.den ≠ 1) then
    ⟨.error "Invalid chip cost provided - must be a positive integer >=1", videos, false⟩
  else
    match extractVideoId youtubeUrl with
    | none => ⟨.error "Invalid YouTube URL format", videos, false⟩
    | some videoId => upsertVideoBody videos fetchResult freshId videoId chipCost

/-! ### src/app/actions.ts : `requestAnalysisAuthenticated` -/

/-- The distinct failure exits of `requestAnalysisAuthenticated`; the
insufficient-balance exit carries the numbers the user-facing message
interpolates (`needed = chipCost - chipBalance`, the current balance and
the cost). -/
inductive AnalysisError where
  | invalidViewId
  | invalidUserId
  | userNotFound
  | notAuthenticated
  | viewNotFound
  | viewNotOwned
  | alreadyHasAnalysis
  | noVideoInView
  | videoNotFound
  | insufficientBalance (needed : ℤ) (balance : ℤ) (cost : ℤ)
  | deductFailed (e : DeductError)
  | analysisFailed (msg : String)
deriving DecidableEq

/-- Result of `requestAnalysisAuthenticated`. -/
inductive AnalysisOutcome where
  | ok (request : RequestRec) (analysis : AnalysisRec) (view : ViewRec)
  | err (e : AnalysisError)
deriving DecidableEq

/-- `requestAnalysisAuthenticated(viewId, userId, userPrompt?)`.

`analysisCall` stands for `analyzeVideoWithGemini`: on success it has
created the returned analysis row itself; on failure it returns an error
message and creates nothing.  `freshRequestId` is the id the request
insert generates.  The source control flow, in order: validate inputs,
load the user (must exist and have a `workosId`), load the view (must
exist, belong to the user, and have no analysis yet), resolve the video,
compare the cost against the balance, deduct, insert the request, run the
analysis; on analysis failure refund (increment plus `REFUND` ledger row
in one transaction), delete the request and propagate the error;
otherwise attach the analysis to the request and the view. -/
def requestAnalysisAuthenticated (db : DB) (viewId userId : String)
    (userPrompt : Option String) (freshRequestId : String)
    (analysisCall : Except String AnalysisRec) : AnalysisOutcome × DB :=
  if viewId = "" then (.err .invalidViewId, db)
  else if userId = "" then (.err .invalidUserId, db)
  else
    match findUser db userId with
    | none => (.err .userNotFound, db)
    | some user =>
      if user.workosId.getD "" = "" then (.err .notAuthenticated, db)
      else
        match findView db viewId with
        | none => (.err .viewNotFound, db)
        | some existingView =>
          if existingView.userId ≠ userId then (.err .viewNotOwned, db)
          else if existingView.analysisIds.length > 0 then (.err .alreadyHasAnalysis, db)
          else
            match existingView.videoIds.head? with
            | none => (.err .noVideoInView, db)
            | some videoRecordId =>
              if videoRecordId = "" then (.err .noVideoInView, db)
              else
                match findVideo db videoRecordId with
                | none => (.err .videoNotFound, db)
                | some videoRecord =>
                  let chipCost := videoRecord.chipCost
                  if user.chipBalance < chipCost then
                    (.err (.insufficientBalance (chipCost - user.chipBalance)
                        user.chipBalance chipCost), db)
                  else
                    match deductChips db userId chipCost
                        ("Video analysis: " ++ videoRecord.title) (some videoRecord.id) with
                    | (.error e, db1) => (.err (.deductFailed e), db1)
                    | (.ok _, db1) =>
                      let request : RequestRec :=
                        { id := freshRequestId, userId := userId, userPrompt := userPrompt,
                          videoIds := [videoRecordId], analysisIds := [] }
                      let db2 := { db1 with requests := db1.requests ++ [request] }
                      match analysisCall with
                      | .error e =>
                        let refundTxn : Txn :=
                          { userId := userId
                            type := "REFUND"
                            chipAmount := chipCost
                            description := "Refund: Analysis failed for " ++ videoRecord.title
                            stripeSessionId := none
                            videoId := some videoRecord.id
                            packageId := none }
                        let db3 :=
                          { db2 with
                            users := incrementUserBalance db2.users userId chipCost
                            transactions := db2.transactions ++ [refundTxn] }
                        let db4 :=
                          { db3 with requests := db3.requests.filter (fun r : RequestRec => r.id ≠ freshRequestId) }
                        (.err (.analysisFailed (if e = "" then "Analysis failed (chips refunded)" else e)),
                          db4)
                      | .ok analysis =>
                        let db3 := { db2 with analyses := db2.analyses ++ [analysis] }
                        let updatedRequest := { request with analysisIds := [analysis.id] }
                        let db4 :=
                          { db3 with
                            requests := db3.requests.map
                              (fun r : RequestRec => if r.id = freshRequestId then updatedRequest else r) }
                        let updatedView :=
                          { existingView with
                            requestIds := existingView.requestIds ++ [freshRequestId]
                            analysisIds := existingView.analysisIds ++ [analysis.id] }
                        let db5 :=
                          { db4 with
                            views := db4.views.map
                              (fun v : ViewRec => if v.id = viewId then updatedView else v) }
                        (.ok updatedRequest analysis updatedView, db5)

/-! ### The ledger-sum invariant -/

/-- Sum of the ledger deltas recorded for one account. -/
def ledgerSum (txns : List Txn) (userId : String) : ℤ :=
  ((txns.filter fun t => t.userId = userId).map Txn.chipAmount).sum

/-- The §3 invariant: every account balance equals the sum of its ledger
deltas. -/
def ChipInvariant (db : DB) : Prop :=
  ∀ u ∈ db.users, u.chipBalance = ledgerSum db.transactions u.id

instance : DecidablePred ChipInvariant := fun db =>
  inferInstanceAs (Decidable (∀ u ∈ db.users, u.chipBalance = ledgerSum db.transactions u.id))

/-! ### Claims about the chip-cost calculator -/

/-- Helper: whenever the `PT` marker is present the calculator returns a
cost, and that cost is at least 1. -/
theorem calculateChipCost_ok_of_findPT {s : String} {rest : List Char}
    (h : findPT s.toList = some rest) :
    ∃ k : ℤ, calculateChipCost s = .ok k ∧ 1 ≤ k := by
  unfold calculateChipCost parseISO8601Duration
  rw [h]
  exact ⟨_, rfl, le_max_left 1 _⟩

/-- C6 (counterexample): a zero duration and a `PT`-prefixed garbage
string both yield the default minimum cost 1 instead of an error. -/
theorem calculateChipCost_silent_defaults :
    calculateChipCost "PT0S" = .ok 1 ∧ calculateChipCost "PTx" = .ok 1 := by
  constructor <;> decide

/-- C6 (amended): the calculator fails with the invalid-duration error
exactly when the input lacks the `PT` marker; any input containing `PT`
— including the zero duration `PT0S` and the malformed `PTx` — silently
yields a cost of at least 1 instead of failing. -/
theorem calculateChipCost_error_iff_no_PT :
    (∀ s : String, findPT s.toList = none →
      calculateChipCost s = .error ("Invalid ISO 8601 duration format: " ++ s)) ∧
    (∀ (s : String) (rest : List Char), findPT s.toList = some rest →
      ∃ k : ℤ, calculateChipCost s = .ok k ∧ 1 ≤ k) ∧
    calculateChipCost "PT0S" = .ok 1 ∧ calculateChipCost "PTx" = .ok 1 := by
  refine ⟨?_, ?_, by decide, by decide⟩
  · intro s hs
    unfold calculateChipCost parseISO8601Duration
    rw [hs]
  · intro s rest h
    exact calculateChipCost_ok_of_findPT h

/-- Witness for `calculateChipCost_error_iff_no_PT` at concrete inputs. -/
theorem calculateChipCost_error_iff_no_PT_witness :
    findPT "bogus".toList = none ∧
    calculateChipCost "bogus" = .error ("Invalid ISO 8601 duration format: " ++ "bogus") := by
  have h := calculateChipCost_error_iff_no_PT
  exact ⟨by decide, h.1 "bogus" (by decide)⟩

/-- C7: for every parsed duration of `q` minutes (hence `60q` seconds),
the cost is `max 1 ⌈q / 30⌉`; durations of 1 to 1800 seconds cost 1 chip,
1801 seconds cost 2, 3600 seconds cost 2, and 3601 seconds cost 3. -/
theorem calculateChipCost_spec (d : String) (q : ℚ)
    (hq : parseISO8601Duration d = .ok q) :
    calculateChipCost d = .ok (max 1 ⌈q / 30⌉) ∧
    (1 ≤ 60 * q → 60 * q ≤ 1800 → calculateChipCost d = .ok 1) ∧
    (60 * q = 1801 → calculateChipCost d = .ok 2) ∧
    (60 * q = 3600 → calculateChipCost d = .ok 2) ∧
    (60 * q = 3601 → calculateChipCost d = .ok 3) := by
  have hbase : calculateChipCost d = .ok (max 1 ⌈q / 30⌉) := by
    unfold calculateChipCost
    rw [hq]
  refine ⟨hbase, ?_, ?_, ?_, ?_⟩
  · intro h1 h2
    have hc : ⌈q / 30⌉ = 1 := by
      rw [Int.ceil_eq_iff]
      constructor
      · push_cast
        linarith
      · push_cast
        linarith
    rw [hbase, hc]
    norm_num
  · intro h
    have hq' : q = 1801 / 60 := by linarith
    have hc : ⌈q / 30⌉ = 2 := by
      rw [Int.ceil_eq_iff]
      subst hq'
      constructor
      · push_cast
        norm_num
      · push_cast
        norm_num
    rw [hbase, hc]
    norm_num
  · intro h
    have hq' : q = 60 := by linarith
    have hc : ⌈q / 30⌉ = 2 := by
      rw [Int.ceil_eq_iff]
      subst hq'
      constructor
      · push_cast
        norm_num
      · push_cast
        norm_num
    rw [hbase, hc]
    norm_num
  · intro h
    have hq' : q = 3601 / 60 := by linarith
    have hc : ⌈q / 30⌉ = 3 := by
      rw [Int.ceil_eq_iff]
      subst hq'
      constructor
      · push_cast
        norm_num
      · push_cast
        norm_num
    rw [hbase, hc]
    norm_num

/-- Witness for `calculateChipCost_spec`: a 30-minute video costs one
chip, a 1801-second video costs two. -/
theorem calculateChipCost_spec_witness :
    (parseISO8601Duration "PT30M" = .ok 30 ∧ calculateChipCost "PT30M" = .ok 1) ∧
    (parseISO8601Duration "PT1801S" = .ok (1801 / 60 : ℚ) ∧
      calculateChipCost "PT1801S" = .ok 2) := by
  refine ⟨⟨by decide, ?_⟩, ⟨by decide, ?_⟩⟩
  · exact (calculateChipCost_spec "PT30M" 30 (by decide)).2.1 (by norm_num) (by norm_num)
  · exact (calculateChipCost_spec "PT1801S" (1801 / 60) (by decide)).2.2.1 (by norm_num)


/-! ### Ledger-sum invariant preservation -/

/-- Appending one ledger entry adds its delta to exactly its owner's sum. -/
theorem ledgerSum_append (ts : List Txn) (t : Txn) (uid : String) :
    ledgerSum (ts ++ [t]) uid =
      ledgerSum ts uid + (if t.userId = uid then t.chipAmount else 0) := by
  simp only [ledgerSum, List.filter_append]
  by_cases h : t.userId = uid
  · simp [h]
  · simp [h]

/-- An absolute balance write of `u.chipBalance + txn.chipAmount` for the
account a fresh entry `txn` belongs to preserves the sum invariant. -/
theorem invariant_setUserBalance (db : DB) (uid : String) (u : UserRec)
    (newBal : ℤ) (txn : Txn)
    (hfind : findUser db uid = some u)
    (hinv : ChipInvariant db)
    (huid : txn.userId = uid) (hamt : u.chipBalance + txn.chipAmount = newBal) :
    ∀ v ∈ setUserBalance db.users uid newBal,
      v.chipBalance = ledgerSum (db.transactions ++ [txn]) v.id := by
  have humem : u ∈ db.users := List.mem_of_find?_eq_some hfind
  have huid' : u.id = uid := by
    have := List.find?_some hfind
    simpa using this
  have hu' : u.chipBalance = ledgerSum db.transactions uid := by
    have := hinv u humem
    rwa [huid'] at this
  intro v hv
  rw [setUserBalance, List.mem_map] at hv
  obtain ⟨w, hw, rfl⟩ := hv
  rw [ledgerSum_append]
  by_cases hcase : w.id = uid
  · rw [if_pos hcase]
    show newBal = ledgerSum db.transactions w.id + (if txn.userId = w.id then txn.chipAmount else 0)
    rw [hcase, huid, if_pos rfl]
    omega
  · rw [if_neg hcase]
    show w.chipBalance = ledgerSum db.transactions w.id + (if txn.userId = w.id then txn.chipAmount else 0)
    rw [huid, if_neg (fun hcontra => hcase hcontra.symm), add_zero]
    exact hinv w hw

/-- A relative balance increment matching a fresh entry `txn` preserves
the sum invariant. -/
theorem invariant_incrementUserBalance (users : List UserRec) (txns : List Txn)
    (uid : String) (amount : ℤ) (txn : Txn)
    (hinv : ∀ v ∈ users, v.chipBalance = ledgerSum txns v.id)
    (huid : txn.userId = uid) (hamt : txn.chipAmount = amount) :
    ∀ v ∈ incrementUserBalance users uid amount,
      v.chipBalance = ledgerSum (txns ++ [txn]) v.id := by
  intro v hv
  rw [incrementUserBalance, List.mem_map] at hv
  obtain ⟨w, hw, rfl⟩ := hv
  rw [ledgerSum_append]
  by_cases hcase : w.id = uid
  · rw [if_pos hcase]
    show w.chipBalance + amount =
      ledgerSum txns w.id + (if txn.userId = w.id then txn.chipAmount else 0)
    rw [hcase, huid, if_pos rfl]
    have := hinv w hw
    rw [hcase] at this
    omega
  · rw [if_neg hcase]
    show w.chipBalance = ledgerSum txns w.id + (if txn.userId = w.id then txn.chipAmount else 0)
    rw [huid, if_neg (fun hcontra => hcase hcontra.symm), add_zero]
    exact hinv w hw

/-- `deductChips` preserves the sum invariant in every branch. -/
theorem deductChips_invariant (db : DB) (userId : String) (chipAmount : ℤ)
    (description : String) (videoId : Option String)
    (hinv : ChipInvariant db) :
    ChipInvariant (deductChips db userId chipAmount description videoId).2 := by
  unfold deductChips
  split
  · exact hinv
  split
  · exact hinv
  split
  · exact hinv
  split
  · exact hinv
  next user heq =>
    split
    · exact hinv
    · intro v hv
      refine invariant_setUserBalance db userId user
        (user.chipBalance - chipAmount) _ heq hinv rfl ?_ v hv
      show user.chipBalance + -chipAmount = user.chipBalance - chipAmount
      ring

/-- `handleCheckoutSessionCompleted` preserves the sum invariant in every
branch. -/
theorem settlement_invariant (db : DB) (session : StripeSession)
    (lineItems : List LineItem) (hinv : ChipInvariant db) :
    ChipInvariant (handleCheckoutSessionCompleted db session lineItems).2 := by
  unfold handleCheckoutSessionCompleted
  repeat' split
  all_goals try exact hinv
  intro v hv
  exact invariant_incrementUserBalance db.users db.transactions _ _ _ hinv rfl rfl v hv

/-- `requestAnalysisAuthenticated` preserves the sum invariant in every
branch (including the refund path). -/
theorem requestAnalysis_invariant (db : DB) (viewId userId : String)
    (userPrompt : Option String) (freshRequestId : String)
    (analysisCall : Except String AnalysisRec)
    (hinv : ChipInvariant db) :
    ChipInvariant
      (requestAnalysisAuthenticated db viewId userId userPrompt freshRequestId analysisCall).2 := by
  unfold requestAnalysisAuthenticated
  split
  · exact hinv
  split
  · exact hinv
  split
  · exact hinv
  next user huser =>
    split
    · exact hinv
    split
    · exact hinv
    next view hview =>
      split
      · exact hinv
      split
      · exact hinv
      split
      · exact hinv
      next vid hvid =>
        split
        · exact hinv
        split
        · exact hinv
        next video hvideo =>
          dsimp only
          split
          · exact hinv
          split
          next e db1 heq =>
            have h2 := deductChips_invariant db userId video.chipCost
              ("Video analysis: " ++ video.title) (some video.id) hinv
            rw [heq] at h2
            exact h2
          next r db1 heq =>
            have h1 : ChipInvariant db1 := by
              have h2 := deductChips_invariant db userId video.chipCost
                ("Video analysis: " ++ video.title) (some video.id) hinv
              rw [heq] at h2
              exact h2
            split
            · intro v hv
              exact invariant_incrementUserBalance db1.users db1.transactions
                userId video.chipCost _ h1 rfl rfl v hv
            · exact h1

/-- C2: the balance-equals-ledger-sum invariant holds for a freshly
created account (balance 0, no entries) and is preserved by every
balance-affecting operation: the analysis debit, the settlement credit,
and the full paid-action flow including its refund path. -/
theorem chipEconomy_ledger_invariant (db : DB) (hinv : ChipInvariant db) :
    (∀ (newId : String) (w : Option String),
      (∀ t ∈ db.transactions, t.userId ≠ newId) →
      ChipInvariant (createUser db newId w)) ∧
    (∀ (userId : String) (amount : ℤ) (description : String) (videoId : Option String),
      ChipInvariant (deductChips db userId amount description videoId).2) ∧
    (∀ (session : StripeSession) (lineItems : List LineItem),
      ChipInvariant (handleCheckoutSessionCompleted db session lineItems).2) ∧
    (∀ (viewId userId : String) (userPrompt : Option String) (freshRequestId : String)
        (analysisCall : Except String AnalysisRec),
      ChipInvariant
        (requestAnalysisAuthenticated db viewId userId userPrompt freshRequestId analysisCall).2) := by
  refine ⟨?_, ?_, ?_, ?_⟩
  · intro newId w hfresh u hu
    rw [createUser] at hu
    dsimp only at hu
    rw [List.mem_append] at hu
    rcases hu with hu | hu
    · exact hinv u hu
    · rw [List.mem_singleton] at hu
      subst hu
      show (0 : ℤ) = ledgerSum db.transactions newId
      have hnil : db.transactions.filter (fun t => t.userId = newId) = [] := by
        rw [List.filter_eq_nil_iff]
        intro t ht
        simpa using hfresh t ht
      rw [ledgerSum, hnil]
      rfl
  · intro userId amount description videoId
    exact deductChips_invariant db userId amount description videoId hinv
  · intro session lineItems
    exact settlement_invariant db session lineItems hinv
  · intro viewId userId userPrompt freshRequestId analysisCall
    exact requestAnalysis_invariant db viewId userId userPrompt freshRequestId analysisCall hinv

/-- A concrete two-account state used to witness the invariant theorem. -/
def witnessDB : DB :=
  { users :=
      [ { id := "u1", workosId := some "wos_1", chipBalance := 5 }
      , { id := "u2", workosId := none, chipBalance := 2 } ]
    transactions :=
      [ { userId := "u1", type := "PURCHASE", chipAmount := 5,
          description := "Purchased Starter", stripeSessionId := some "cs_1",
          videoId := none, packageId := some "pkg1" }
      , { userId := "u2", type := "PURCHASE", chipAmount := 2,
          description := "Purchased Mini", stripeSessionId := some "cs_2",
          videoId := none, packageId := some "pkg1" } ]
    videos :=
      [ { id := "v1", youtubeId := "yt1", title := "T", duration := "PT10M", chipCost := 3 } ]
    views :=
      [ { id := "view1", userId := "u1", videoIds := ["v1"], requestIds := [],
          analysisIds := [] } ]
    requests := []
    analyses := []
    packages :=
      [ { id := "pkg1", name := "Starter", chipAmount := 200, stripePriceId := "price_1" } ] }

/-- Witness for `chipEconomy_ledger_invariant`: the invariant holds in the
concrete state and is preserved by a concrete debit there. -/
theorem chipEconomy_ledger_invariant_witness :
    ChipInvariant witnessDB ∧
    ChipInvariant (deductChips witnessDB "u1" 3 "Video analysis: T" (some "v1")).2 := by
  have h := chipEconomy_ledger_invariant witnessDB (by decide)
  exact ⟨by decide, h.2.1 "u1" 3 "Video analysis: T" (some "v1")⟩

/-! ### C5: the category a successful debit records -/

/-- C5 (code evaluated at the failing input): a successful debit of 3
chips from a 5-chip account records a ledger entry of type `DEDUCTION`
with delta `-3` — and `DEDUCTION` is not a value of the persisted
`TransactionType` enumeration, which only admits `PURCHASE`,
`ANALYSIS_SPEND`, `ADMIN_CREDIT` and `ADMIN_DEBIT`. -/
theorem deductChips_records_unpersisted_category :
    (deductChips witnessDB "u1" 3 "Video analysis: T" (some "v1")).1 =
      .ok ({ userId := "u1", type := "DEDUCTION", chipAmount := -3,
             description := "Video analysis: T", stripeSessionId := none,
             videoId := some "v1", packageId := none }, 2) ∧
    "DEDUCTION" ∉ persistedTransactionTypes := by
  constructor
  · decide
  · decide

/-! ### Claims about `requestAnalysisAuthenticated` -/

/-- C3: when the resolved chip cost exceeds the balance, the request
fails with the insufficient-balance error carrying the exact shortfall
`cost - balance`, the state is unchanged (no debit, no ledger entry),
and the external analysis call is never consulted (the conclusion holds
for every value of `analysisCall`). -/
theorem requestAnalysis_insufficient_balance (db : DB) (viewId userId : String)
    (userPrompt : Option String) (freshRequestId : String)
    (analysisCall : Except String AnalysisRec)
    (user : UserRec) (view : ViewRec) (vid : String) (video : VideoRec)
    (hv : viewId ≠ "") (hu : userId ≠ "")
    (huser : findUser db userId = some user)
    (hauth : user.workosId.getD "" ≠ "")
    (hview : findView db viewId = some view)
    (hown : view.userId = userId)
    (hnoanalysis : view.analysisIds = [])
    (hhead : view.videoIds.head? = some vid)
    (hvid : vid ≠ "")
    (hvideo : findVideo db vid = some video)
    (hshort : user.chipBalance < video.chipCost) :
    requestAnalysisAuthenticated db viewId userId userPrompt freshRequestId analysisCall =
      (.err (.insufficientBalance (video.chipCost - user.chipBalance)
        user.chipBalance video.chipCost), db) := by
  unfold requestAnalysisAuthenticated
  rw [if_neg hv, if_neg hu, huser]
  dsimp only
  rw [if_neg hauth, hview]
  dsimp only
  rw [if_neg (show ¬(view.userId ≠ userId) from fun h => h hown),
    if_neg (show ¬(view.analysisIds.length > 0) from by rw [hnoanalysis]; decide),
    hhead]
  dsimp only
  rw [if_neg hvid, hvideo]
  dsimp only
  rw [if_pos hshort]

/-- Witness for `requestAnalysis_insufficient_balance`: balance 1 against
cost 3 reports a shortfall of 2 and leaves the state untouched. -/
def shortDB : DB :=
  { users := [ { id := "u1", workosId := some "wos_1", chipBalance := 1 } ]
    transactions :=
      [ { userId := "u1", type := "PURCHASE", chipAmount := 1,
          description := "Purchased Mini", stripeSessionId := some "cs_0",
          videoId := none, packageId := some "pkg1" } ]
    videos :=
      [ { id := "v1", youtubeId := "yt1", title := "T", duration := "PT90M", chipCost := 3 } ]
    views :=
      [ { id := "view1", userId := "u1", videoIds := ["v1"], requestIds := [],
          analysisIds := [] } ]
    requests := []
    analyses := []
    packages := [] }

theorem requestAnalysis_insufficient_balance_witness :
    requestAnalysisAuthenticated shortDB "view1" "u1" none "r1" (.ok ⟨"a1", "u1", "yt1"⟩) =
      (.err (.insufficientBalance 2 1 3), shortDB) := by
  have h := requestAnalysis_insufficient_balance shortDB "view1" "u1" none "r1"
    (.ok ⟨"a1", "u1", "yt1"⟩)
    { id := "u1", workosId := some "wos_1", chipBalance := 1 }
    { id := "view1", userId := "u1", videoIds := ["v1"], requestIds := [], analysisIds := [] }
    "v1"
    { id := "v1", youtubeId := "yt1", title := "T", duration := "PT90M", chipCost := 3 }
    (by decide) (by decide) (by decide) (by decide) (by decide) (by decide) (by decide)
    (by decide) (by decide) (by decide) (by decide)
  exact h

/-- C8: when the view already carries an analysis, the request fails with
the already-processed error before any debit: the state is unchanged for
every value of the analysis oracle. -/
theorem requestAnalysis_already_processed (db : DB) (viewId userId : String)
    (userPrompt : Option String) (freshRequestId : String)
    (analysisCall : Except String AnalysisRec)
    (user : UserRec) (view : ViewRec)
    (hv : viewId ≠ "") (hu : userId ≠ "")
    (huser : findUser db userId = some user)
    (hauth : user.workosId.getD "" ≠ "")
    (hview : findView db viewId = some view)
    (hown : view.userId = userId)
    (hhas : view.analysisIds ≠ []) :
    requestAnalysisAuthenticated db viewId userId userPrompt freshRequestId analysisCall =
      (.err .alreadyHasAnalysis, db) := by
  unfold requestAnalysisAuthenticated
  rw [if_neg hv, if_neg hu, huser]
  dsimp only
  rw [if_neg hauth, hview]
  dsimp only
  rw [if_neg (show ¬(view.userId ≠ userId) from fun h => h hown),
    if_pos (show view.analysisIds.length > 0 from List.length_pos.mpr hhas)]

/-- Witness for `requestAnalysis_already_processed`. -/
def doneDB : DB :=
  { users := [ { id := "u1", workosId := some "wos_1", chipBalance := 5 } ]
    transactions := []
    videos :=
      [ { id := "v1", youtubeId := "yt1", title := "T", duration := "PT10M", chipCost := 1 } ]
    views :=
      [ { id := "view1", userId := "u1", videoIds := ["v1"], requestIds := ["r0"],
          analysisIds := ["a0"] } ]
    requests := []
    analyses := [ { id := "a0", userId := "u1", videoId := "yt1" } ]
    packages := [] }

theorem requestAnalysis_already_processed_witness :
    requestAnalysisAuthenticated doneDB "view1" "u1" none "r1" (.error "boom") =
      (.err .alreadyHasAnalysis, doneDB) := by
  exact requestAnalysis_already_processed doneDB "view1" "u1" none "r1" (.error "boom")
    { id := "u1", workosId := some "wos_1", chipBalance := 5 }
    { id := "view1", userId := "u1", videoIds := ["v1"], requestIds := ["r0"],
      analysisIds := ["a0"] }
    (by decide) (by decide) (by decide) (by decide) (by decide) (by decide) (by decide)

/-- C10: every precondition failure — unknown user, unauthenticated user,
unknown view, or a view owned by someone else — returns the matching
error with the state (balance and ledger included) unchanged. -/
theorem requestAnalysis_precondition_failures (db : DB) (viewId userId : String)
    (userPrompt : Option String) (freshRequestId : String)
    (analysisCall : Except String AnalysisRec)
    (hv : viewId ≠ "") (hu : userId ≠ "") :
    (findUser db userId = none →
      requestAnalysisAuthenticated db viewId userId userPrompt freshRequestId analysisCall =
        (.err .userNotFound, db)) ∧
    (∀ user, findUser db userId = some user → user.workosId = none →
      requestAnalysisAuthenticated db viewId userId userPrompt freshRequestId analysisCall =
        (.err .notAuthenticated, db)) ∧
    (∀ user, findUser db userId = some user → user.workosId.getD "" ≠ "" →
      findView db viewId = none →
      requestAnalysisAuthenticated db viewId userId userPrompt freshRequestId analysisCall =
        (.err .viewNotFound, db)) ∧
    (∀ user view, findUser db userId = some user → user.workosId.getD "" ≠ "" →
      findView db viewId = some view → view.userId ≠ userId →
      requestAnalysisAuthenticated db viewId userId userPrompt freshRequestId analysisCall =
        (.err .viewNotOwned, db)) := by
  refine ⟨?_, ?_, ?_, ?_⟩
  · intro hnone
    unfold requestAnalysisAuthenticated
    rw [if_neg hv, if_neg hu, hnone]
  · intro user huser hwos
    unfold requestAnalysisAuthenticated
    rw [if_neg hv, if_neg hu, huser]
    dsimp only
    rw [if_pos (show user.workosId.getD "" = "" from by rw [hwos]; rfl)]
  · intro user huser hauth hnone
    unfold requestAnalysisAuthenticated
    rw [if_neg hv, if_neg hu, huser]
    dsimp only
    rw [if_neg hauth, hnone]
  · intro user view huser hauth hview hnotown
    unfold requestAnalysisAuthenticated
    rw [if_neg hv, if_neg hu, huser]
    dsimp only
    rw [if_neg hauth, hview]
    dsimp only
    rw [if_pos hnotown]

/-- Witness for `requestAnalysis_precondition_failures`: a view owned by
another user is rejected without touching the state. -/
theorem requestAnalysis_precondition_failures_witness :
    requestAnalysisAuthenticated witnessDB "view1" "u2" none "r1" (.error "boom") =
      (.err .notAuthenticated, witnessDB) := by
  have h := requestAnalysis_precondition_failures witnessDB "view1" "u2" none "r1"
    (.error "boom") (by decide) (by decide)
  exact h.2.1 { id := "u2", workosId := none, chipBalance := 2 } (by decide) (by decide)

/-- Looking an account up after an absolute balance write. -/
theorem find?_setUserBalance (users : List UserRec) (uid : String) (b : ℤ) :
    (setUserBalance users uid b).find? (fun x => x.id = uid) =
      (users.find? (fun x => x.id = uid)).map
        (fun u => { u with chipBalance := b }) := by
  rw [setUserBalance, List.find?_map]
  have hp : ((fun x => decide (x.id = uid)) ∘
      (fun u : UserRec => if u.id = uid then { u with chipBalance := b } else u)) =
      fun x : UserRec => decide (x.id = uid) := by
    funext u
    by_cases h : u.id = uid <;> simp [h]
  rw [hp]
  cases hfind : users.find? (fun x => decide (x.id = uid)) with
  | none => rfl
  | some u =>
    have hid : u.id = uid := by simpa using List.find?_some hfind
    simp [hid]

/-- Looking an account up after a relative balance increment. -/
theorem find?_incrementUserBalance (users : List UserRec) (uid : String) (d : ℤ) :
    (incrementUserBalance users uid d).find? (fun x => x.id = uid) =
      (users.find? (fun x => x.id = uid)).map
        (fun u => { u with chipBalance := u.chipBalance + d }) := by
  rw [incrementUserBalance, List.find?_map]
  have hp : ((fun x => decide (x.id = uid)) ∘
      (fun u : UserRec => if u.id = uid then { u with chipBalance := u.chipBalance + d } else u)) =
      fun x : UserRec => decide (x.id = uid) := by
    funext u
    by_cases h : u.id = uid <;> simp [h]
  rw [hp]
  cases hfind : users.find? (fun x => decide (x.id = uid)) with
  | none => rfl
  | some u =>
    have hid : u.id = uid := by simpa using List.find?_some hfind
    simp [hid]

/-- The description `deductChips` is called with is never empty. -/
theorem analysis_description_ne_empty (t : String) : "Video analysis: " ++ t ≠ "" := by
  intro h
  have hlen := congrArg String.length h
  rw [String.length_append] at hlen
  have h16 : ("Video analysis: " : String).length = 16 := rfl
  have h0 : ("" : String).length = 0 := rfl
  omega

/-- C4: when the balance covers the cost but the external analysis call
fails, the run appends exactly two ledger entries — the `DEDUCTION` of
`-cost` and the `REFUND` of `+cost` — the final balance equals the
starting balance, and the original failure message is propagated. -/
theorem requestAnalysis_refund_on_failure (db : DB) (viewId userId : String)
    (userPrompt : Option String) (freshRequestId : String) (e : String)
    (user : UserRec) (view : ViewRec) (vid : String) (video : VideoRec)
    (r : AnalysisOutcome) (db2 : DB)
    (hv : viewId ≠ "") (hu : userId ≠ "")
    (huser : findUser db userId = some user)
    (hauth : user.workosId.getD "" ≠ "")
    (hview : findView db viewId = some view)
    (hown : view.userId = userId)
    (hnoanalysis : view.analysisIds = [])
    (hhead : view.videoIds.head? = some vid)
    (hvid : vid ≠ "")
    (hvideo : findVideo db vid = some video)
    (hpos : 1 ≤ video.chipCost)
    (hle : video.chipCost ≤ user.chipBalance)
    (he : e ≠ "")
    (hrun : requestAnalysisAuthenticated db viewId userId userPrompt freshRequestId
      (.error e) = (r, db2)) :
    r = .err (.analysisFailed e) ∧
    db2.transactions = db.transactions ++
      [ { userId := userId, type := "DEDUCTION", chipAmount := -video.chipCost,
          description := "Video analysis: " ++ video.title,
          stripeSessionId := none, videoId := some video.id, packageId := none }
      , { userId := userId, type := "REFUND", chipAmount := video.chipCost,
          description := "Refund: Analysis failed for " ++ video.title,
          stripeSessionId := none, videoId := some video.id, packageId := none } ] ∧
    (findUser db2 userId).map UserRec.chipBalance = some user.chipBalance := by
  have hded : deductChips db userId video.chipCost
      ("Video analysis: " ++ video.title) (some video.id) =
      (.ok ({ userId := userId, type := "DEDUCTION", chipAmount := -video.chipCost,
              description := "Video analysis: " ++ video.title,
              stripeSessionId := none, videoId := some video.id, packageId := none },
            user.chipBalance - video.chipCost),
        { db with
          users := setUserBalance db.users userId (user.chipBalance - video.chipCost)
          transactions := db.transactions ++
            [ { userId := userId, type := "DEDUCTION", chipAmount := -video.chipCost,
                description := "Video analysis: " ++ video.title,
                stripeSessionId := none, videoId := some video.id, packageId := none } ] }) := by
    unfold deductChips
    rw [if_neg hu, if_neg (not_lt.mpr hpos),
      if_neg (analysis_description_ne_empty video.title), huser]
    dsimp only
    rw [if_neg (not_lt.mpr hle)]
  unfold requestAnalysisAuthenticated at hrun
  rw [if_neg hv, if_neg hu, huser] at hrun
  dsimp only at hrun
  rw [if_neg hauth, hview] at hrun
  dsimp only at hrun
  rw [if_neg (show ¬(view.userId ≠ userId) from fun h => h hown),
    if_neg (show ¬(view.analysisIds.length > 0) from by rw [hnoanalysis]; decide),
    hhead] at hrun
  dsimp only at hrun
  rw [if_neg hvid, hvideo] at hrun
  dsimp only at hrun
  rw [if_neg (not_lt.mpr hle), hded] at hrun
  dsimp only at hrun
  rw [if_neg he] at hrun
  injection hrun with h1 h2
  subst h1
  subst h2
  refine ⟨rfl, ?_, ?_⟩
  · show (db.transactions ++ [_]) ++ [_] = db.transactions ++ [_, _]
    rw [List.append_assoc]
    rfl
  · show ((incrementUserBalance
        (setUserBalance db.users userId (user.chipBalance - video.chipCost))
        userId video.chipCost).find? (fun x => x.id = userId)).map UserRec.chipBalance =
      some user.chipBalance
    have huser' : db.users.find? (fun x => decide (x.id = userId)) = some user := huser
    rw [find?_incrementUserBalance, find?_setUserBalance, huser']
    show some (user.chipBalance - video.chipCost + video.chipCost) = some user.chipBalance
    congr 1
    ring

/-- Witness for `requestAnalysis_refund_on_failure` on a concrete state:
balance 5, cost 3, failing analysis. -/
theorem requestAnalysis_refund_on_failure_witness :
    (requestAnalysisAuthenticated witnessDB "view1" "u1" none "r1"
        (.error "Gemini API error")).1 = .err (.analysisFailed "Gemini API error") ∧
    (findUser (requestAnalysisAuthenticated witnessDB "view1" "u1" none "r1"
        (.error "Gemini API error")).2 "u1").map UserRec.chipBalance = some 5 := by
  have h := requestAnalysis_refund_on_failure witnessDB "view1" "u1" none "r1"
    "Gemini API error"
    { id := "u1", workosId := some "wos_1", chipBalance := 5 }
    { id := "view1", userId := "u1", videoIds := ["v1"], requestIds := [], analysisIds := [] }
    "v1"
    { id := "v1", youtubeId := "yt1", title := "T", duration := "PT10M", chipCost := 3 }
    (requestAnalysisAuthenticated witnessDB "view1" "u1" none "r1"
      (.error "Gemini API error")).1
    (requestAnalysisAuthenticated witnessDB "view1" "u1" none "r1"
      (.error "Gemini API error")).2
    (by decide) (by decide) (by decide) (by decide) (by decide) (by decide) (by decide)
    (by decide) (by decide) (by decide) (by decide) (by decide) (by decide) rfl
  exact ⟨h.1, h.2.2⟩

/-! ### Claims about the payment settlement handler -/

/-- Looking up a user in an explicitly assembled state is a lookup in its
user table. -/
theorem findUser_mk (users : List UserRec) (txns : List Txn) (videos : List VideoRec)
    (views : List ViewRec) (requests : List RequestRec) (analyses : List AnalysisRec)
    (packages : List ChipPkg) (uid : String) :
    findUser ⟨users, txns, videos, views, requests, analyses, packages⟩ uid =
      users.find? (fun x => x.id = uid) := rfl

/-- Likewise for package lookup. -/
theorem findPkg_mk (users : List UserRec) (txns : List Txn) (videos : List VideoRec)
    (views : List ViewRec) (requests : List RequestRec) (analyses : List AnalysisRec)
    (packages : List ChipPkg) (pid : String) :
    findPkg ⟨users, txns, videos, views, requests, analyses, packages⟩ pid =
      packages.find? (fun p => p.stripePriceId = pid) := rfl

/-- C1 (amended): a first delivery of a payment-completed notification
credits the package amount once; re-delivering the same session leaves
the state completely unchanged — the balance stays at its post-first
value and exactly one purchase entry carries the session id, because the
UNIQUE constraint on `stripe_session_id` aborts the insert and rolls the
whole transaction back — but the duplicate delivery surfaces as a thrown
error (the webhook answers 500), not as an idempotent no-op returning the
original entry. -/
theorem settlement_credits_once_then_throws (db : DB) (session : StripeSession)
    (lineItems : List LineItem) (uid : String) (user : UserRec)
    (li : LineItem) (pid : String) (pkg : ChipPkg)
    (href : session.clientReferenceId = some uid) (hne : uid ≠ "")
    (huser : findUser db uid = some user)
    (hhead : lineItems.head? = some li)
    (hpid : li.priceId = some pid) (hpidne : pid ≠ "")
    (hpkg : findPkg db pid = some pkg)
    (hfresh : ∀ t ∈ db.transactions, t.stripeSessionId ≠ some session.id) :
    ∀ r1 db1, handleCheckoutSessionCompleted db session lineItems = (r1, db1) →
      r1 = .credited (pkg.chipAmount * lineItemQuantity li.quantity) ∧
      handleCheckoutSessionCompleted db1 session lineItems =
        (.threw "Unique constraint failed on stripe_session_id", db1) ∧
      (db1.transactions.filter (fun t => t.stripeSessionId = some session.id)).length = 1 ∧
      (findUser db1 uid).map UserRec.chipBalance =
        some (user.chipBalance + pkg.chipAmount * lineItemQuantity li.quantity) := by
  intro r1 db1 hrun
  have hany : (db.transactions.any fun t => t.stripeSessionId = some session.id) = false := by
    rw [List.any_eq_false]
    intro t ht
    simpa using hfresh t ht
  unfold handleCheckoutSessionCompleted at hrun
  rw [href] at hrun
  dsimp only at hrun
  rw [if_neg hne, huser] at hrun
  dsimp only at hrun
  rw [hhead] at hrun
  dsimp only at hrun
  rw [hpid] at hrun
  dsimp only at hrun
  rw [if_neg hpidne, hpkg] at hrun
  dsimp only at hrun
  rw [hany] at hrun
  rw [if_neg Bool.false_ne_true] at hrun
  injection hrun with h1 h2
  subst h1
  subst h2
  have huser' : db.users.find? (fun x => decide (x.id = uid)) = some user := huser
  refine ⟨rfl, ?_, ?_, ?_⟩
  · unfold handleCheckoutSessionCompleted
    rw [href]
    dsimp only
    rw [if_neg hne, findUser_mk, find?_incrementUserBalance, huser']
    simp only [Option.map_some']
    rw [hhead]
    dsimp only
    rw [hpid]
    dsimp only
    rw [if_neg hpidne, findPkg_mk]
    rw [show db.packages.find? (fun p => p.stripePriceId = pid) = some pkg from hpkg]
    dsimp only
    rw [List.any_append]
    have : ([({ userId := uid
                type := "PURCHASE"
                chipAmount := pkg.chipAmount * lineItemQuantity li.quantity
                description := "Purchased " ++ pkg.name
                stripeSessionId := some session.id
                videoId := none
                packageId := some pkg.id } : Txn)].any
          fun t => t.stripeSessionId = some session.id) = true := by simp
    rw [this, Bool.or_true, if_pos rfl]
  · show (List.filter (fun t => decide (t.stripeSessionId = some session.id))
      (db.transactions ++
        [ { userId := uid
            type := "PURCHASE"
            chipAmount := pkg.chipAmount * lineItemQuantity li.quantity
            description := "Purchased " ++ pkg.name
            stripeSessionId := some session.id
            videoId := none
            packageId := some pkg.id } ])).length = 1
    rw [List.filter_append]
    have hnil : (db.transactions.filter fun t => t.stripeSessionId = some session.id) = [] := by
      rw [List.filter_eq_nil_iff]
      intro t ht
      simpa using hfresh t ht
    rw [hnil]
    simp
  · rw [findUser_mk, find?_incrementUserBalance, huser']
    rfl

/-- A concrete settlement notification for the witness state. -/
def exSession : StripeSession := { id := "cs_9", clientReferenceId := some "u1" }

/-- Its single line item: one unit of the package priced `price_1`. -/
def exItems : List LineItem := [ { priceId := some "price_1", quantity := some 1 } ]

/-- The state after the first delivery of `exSession` to `witnessDB`. -/
def dupDB1 : DB :=
  { users :=
      [ { id := "u1", workosId := some "wos_1", chipBalance := 205 }
      , { id := "u2", workosId := none, chipBalance := 2 } ]
    transactions :=
      [ { userId := "u1", type := "PURCHASE", chipAmount := 5,
          description := "Purchased Starter", stripeSessionId := some "cs_1",
          videoId := none, packageId := some "pkg1" }
      , { userId := "u2", type := "PURCHASE", chipAmount := 2,
          description := "Purchased Mini", stripeSessionId := some "cs_2",
          videoId := none, packageId := some "pkg1" }
      , { userId := "u1", type := "PURCHASE", chipAmount := 200,
          description := "Purchased Starter", stripeSessionId := some "cs_9",
          videoId := none, packageId := some "pkg1" } ]
    videos := witnessDB.videos
    views := witnessDB.views
    requests := []
    analyses := []
    packages := witnessDB.packages }

/-- Witness for `settlement_credits_once_then_throws` on the concrete
state: the first delivery credits 200 chips, the second throws and
leaves the state as it was. -/
theorem settlement_credits_once_then_throws_witness :
    handleCheckoutSessionCompleted witnessDB exSession exItems =
      (.credited 200, dupDB1) ∧
    handleCheckoutSessionCompleted dupDB1 exSession exItems =
      (.threw "Unique constraint failed on stripe_session_id", dupDB1) := by
  have h := settlement_credits_once_then_throws witnessDB exSession exItems "u1"
    { id := "u1", workosId := some "wos_1", chipBalance := 5 }
    { priceId := some "price_1", quantity := some 1 }
    "price_1"
    { id := "pkg1", name := "Starter", chipAmount := 200, stripePriceId := "price_1" }
    (by decide) (by decide) (by decide) (by decide) (by decide) (by decide) (by decide)
    (by decide)
    (.credited 200) dupDB1 (by decide)
  exact ⟨by decide, h.2.1⟩

/-- C1 (counterexample to the claim as stated): re-delivering the same
checkout session is resolved as a thrown error — the webhook reports
failure — not as an idempotent no-op returning the original entry. -/
theorem settlement_duplicate_throws_not_noop :
    (handleCheckoutSessionCompleted
      (handleCheckoutSessionCompleted witnessDB exSession exItems).2
      exSession exItems).1 =
      .threw "Unique constraint failed on stripe_session_id" := by decide

/-! ### C9: the optional manual chip cost of `upsertVideoAction` -/

/-- C9: a supplied integral cost of at least 1 is persisted verbatim on
the stored video; a supplied cost below 1 or non-integral fails before
the video store is touched; with no supplied cost the stored cost is the
duration-derived one — so the persisted cost is an input, not always a
function of the duration. -/
theorem upsertVideoAction_chipCost_spec (videos : List VideoRec)
    (fetchResult : Option YouTubeVideoData) (freshId : String) (youtubeUrl : String)
    (hurl : youtubeUrl ≠ "") :
    (∀ (c : ℚ) (data : YouTubeVideoData) (vid : String), 1 ≤ c → c.den = 1 →
      extractVideoId youtubeUrl = some vid → fetchResult = some data →
      ∃ v : VideoRec,
        (upsertVideoAction videos fetchResult freshId youtubeUrl (some c)).result = .ok v ∧
        (v.chipCost : ℚ) = c ∧
        v ∈ (upsertVideoAction videos fetchResult freshId youtubeUrl (some c)).videos) ∧
    (∀ c : ℚ, c < 1 ∨ c.den ≠ 1 →
      upsertVideoAction videos fetchResult freshId youtubeUrl (some c) =
        ⟨.error "Invalid chip cost provided - must be a positive integer >=1",
          videos, false⟩) ∧
    (∀ (data : YouTubeVideoData) (vid : String) (k : ℤ),
      extractVideoId youtubeUrl = some vid → fetchResult = some data →
      calculateChipCost data.duration = .ok k →
      ∃ v : VideoRec,
        (upsertVideoAction videos fetchResult freshId youtubeUrl none).result = .ok v ∧
        v.chipCost = k ∧
        v ∈ (upsertVideoAction videos fetchResult freshId youtubeUrl none).videos) := by
  refine ⟨?_, ?_, ?_⟩
  · intro c data vid hc1 hcden hvid hfetch
    have hvalid : ((some c).any fun x => x < 1 || x.den ≠ 1) = false := by
      simp [not_lt.mpr hc1, hcden]
    have hrun : upsertVideoAction videos fetchResult freshId youtubeUrl (some c) =
        upsertVideoBody videos fetchResult freshId vid (some c) := by
      unfold upsertVideoAction
      rw [if_neg hurl, hvalid, if_neg Bool.false_ne_true, hvid]
    rw [hrun]
    unfold upsertVideoBody
    rw [hfetch]
    dsimp only [mapYouTubeDataToVideo]
    cases hfind : videos.find? (fun v => v.youtubeId = vid) with
    | some existing =>
      refine ⟨_, rfl, ?_, ?_⟩
      · show ((c.num : ℤ) : ℚ) = c
        exact Rat.coe_int_num_of_den_eq_one hcden
      · rw [List.mem_map]
        refine ⟨existing, List.mem_of_find?_eq_some hfind, ?_⟩
        have : existing.youtubeId = vid := by simpa using List.find?_some hfind
        rw [if_pos this]
    | none =>
      refine ⟨_, rfl, ?_, ?_⟩
      · show ((c.num : ℤ) : ℚ) = c
        exact Rat.coe_int_num_of_den_eq_one hcden
      · rw [List.mem_append]
        right
        exact List.mem_singleton.mpr rfl
  · intro c hbad
    have hvalid : ((some c).any fun x => x < 1 || x.den ≠ 1) = true := by
      rcases hbad with h | h
      · simp [h]
      · simp [h]
    unfold upsertVideoAction
    rw [if_neg hurl, hvalid, if_pos rfl]
  · intro data vid k hvid hfetch hk
    have hvalid : ((none : Option ℚ).any fun x => x < 1 || x.den ≠ 1) = false := rfl
    have hrun : upsertVideoAction videos fetchResult freshId youtubeUrl none =
        upsertVideoBody videos fetchResult freshId vid none := by
      unfold upsertVideoAction
      rw [if_neg hurl, hvalid, if_neg Bool.false_ne_true, hvid]
    rw [hrun]
    unfold upsertVideoBody
    rw [hfetch]
    dsimp only [mapYouTubeDataToVideo]
    rw [hk]
    cases hfind : videos.find? (fun v => v.youtubeId = vid) with
    | some existing =>
      refine ⟨_, rfl, ?_, ?_⟩
      · show ((k : ℚ)).num = k
        exact Rat.num_intCast k
      · rw [List.mem_map]
        refine ⟨existing, List.mem_of_find?_eq_some hfind, ?_⟩
        have : existing.youtubeId = vid := by simpa using List.find?_some hfind
        rw [if_pos this]
    | none =>
      refine ⟨_, rfl, ?_, ?_⟩
      · show ((k : ℚ)).num = k
        exact Rat.num_intCast k
      · rw [List.mem_append]
        right
        exact List.mem_singleton.mpr rfl

/-- Witness for `upsertVideoAction_chipCost_spec`: a manual cost of 5 on
a 10-minute video (duration-derived cost 1) is stored verbatim, and a
manual cost of 0 is rejected without store access. -/
theorem upsertVideoAction_chipCost_spec_witness :
    (∃ v : VideoRec,
      (upsertVideoAction [] (some { id := "abc", title := "T", duration := "PT10M" })
        "f1" "https://youtu.be/abc" (some 5)).result = .ok v ∧
      (v.chipCost : ℚ) = 5 ∧
      v ∈ (upsertVideoAction [] (some { id := "abc", title := "T", duration := "PT10M" })
        "f1" "https://youtu.be/abc" (some 5)).videos) ∧
    upsertVideoAction [] (some { id := "abc", title := "T", duration := "PT10M" })
        "f1" "https://youtu.be/abc" (some 0) =
      ⟨.error "Invalid chip cost provided - must be a positive integer >=1", [], false⟩ := by
  have h := upsertVideoAction_chipCost_spec []
    (some { id := "abc", title := "T", duration := "PT10M" })
    "f1" "https://youtu.be/abc" (by decide)
  refine ⟨h.1 5 { id := "abc", title := "T", duration := "PT10M" } "abc"
    (by norm_num) (by decide) (by decide) rfl, ?_⟩
  exact h.2.1 0 (Or.inl (by norm_num))
